import Mathlib

/-!
Verification of the Inventory & Sales Ledger of `src/app.py`.

The ledger state holds two tables, Inventory and Sales, embedded as Lean
lists of rows in insertion order (pandas DataFrames with positional
indices).  Monetary values (pandas float64 columns) are embedded as
rationals: every binary64 value is an exact rational, and where a
property turns on the float64 rounding itself, that rounding (53
significant bits, to nearest, ties to even) is modelled explicitly by
`roundSig53`; quantities (int columns) are integers.  The mutating operations
`add_product`, `record_sale`, `delete_sale` and the query
`calculate_revenue` are translated line by line from `src/app.py`.
Persistence (`save_data`) and the Streamlit rendering calls have no effect
on the tables and are omitted; `st.error` / `st.warning` early returns are
embedded as an error value paired with the unchanged state.
-/

/-- A row of the Inventory table (columns of `inventory_data.csv`). -/
structure Product where
  productId : String
  name : String
  price : ℚ
  quantity : ℤ
  category : String
deriving Repr, DecidableEq

/-- A row of the Sales table (columns of `sales_data.csv`).  The `date`
field holds the formatted timestamp string and is threaded through as an
opaque input. -/
structure SaleRecord where
  date : String
  customerName : String
  productId : String
  productName : String
  quantitySold : ℤ
  totalPrice : ℚ
deriving Repr, DecidableEq

/-- The ledger state: `st.session_state.inventory` and
`st.session_state.sales`. -/
structure Ledger where
  inventory : List Product
  sales : List SaleRecord
deriving Repr, DecidableEq

/-- Errors surfaced through `st.error` / `st.warning` in `src/app.py`. -/
inductive LedgerError where
  | productNotFound
  | insufficientStock
  | indexOutOfRange
deriving Repr, DecidableEq

/-- `add_product` (app.py lines 46-55): builds a one-row DataFrame and
concatenates it onto the Inventory table.  It never looks up `pid`: the
new row is appended unconditionally. -/
def add_product (s : Ledger) (pid name : String) (price : ℚ) (qty : ℤ)
    (category : String) : Ledger :=
  { s with inventory := s.inventory ++ [⟨pid, name, price, qty, category⟩] }

/-- The `add_product_form` submit handler (app.py lines 153-158): calls
`add_product` when both `pid` and `name` are truthy (non-empty) strings,
otherwise shows a warning and leaves the state alone. -/
def add_product_form (s : Ledger) (pid name : String) (price : ℚ) (qty : ℤ)
    (category : String) : Ledger :=
  if pid ≠ "" ∧ name ≠ "" then add_product s pid name price qty category else s

/-- `record_sale` (app.py lines 57-86).  `inventory[inventory["Product ID"] == pid]`
selects the matching rows; `.values[0]` reads the first one, so the lookup
is `List.find?`.  The `.loc` assignment on line 83 writes `stock_qty - qty`
into the Quantity column of every matching row. -/
def record_sale (s : Ledger) (customer pid : String) (qty : ℤ)
    (date : String) : Option LedgerError × Ledger :=
  match s.inventory.find? (fun p => p.productId == pid) with
  | none => (some .productNotFound, s)
  | some product =>
    let stock_qty := product.quantity
    let price := product.price
    let name := product.name
    if qty > stock_qty then (some .insufficientStock, s)
    else
      let new_sale : SaleRecord :=
        ⟨date, customer, pid, name, qty, price * qty⟩
      let sales' := s.sales ++ [new_sale]
      let inventory' := s.inventory.map (fun p =>
        if p.productId == pid then { p with quantity := stock_qty - qty } else p)
      (none, ⟨inventory', sales'⟩)

/-- `delete_sale` (app.py lines 88-109): guards `0 <= index < len(sales)`,
reads the row at that position, adds its `Quantity Sold` back onto every
inventory row with the same `Product ID` (guarded by a membership test on
line 96), then drops the sale row and renumbers. -/
def delete_sale (s : Ledger) (index_to_delete : ℤ) : Option LedgerError × Ledger :=
  if h : 0 ≤ index_to_delete ∧ index_to_delete < (s.sales.length : ℤ) then
    let n : ℕ := index_to_delete.toNat
    have hn : n < s.sales.length := by omega
    let deleted_row := s.sales.get ⟨n, hn⟩
    let pid := deleted_row.productId
    let qty_sold := deleted_row.quantitySold
    let inventory' :=
      if s.inventory.any (fun p => p.productId == pid) then
        s.inventory.map (fun p =>
          if p.productId == pid then { p with quantity := p.quantity + qty_sold } else p)
      else s.inventory
    (none, ⟨inventory', s.sales.eraseIdx n⟩)
  else
    (some .indexOutOfRange, s)

/-- `calculate_revenue` (app.py lines 111-114) in the exact-arithmetic
idealization: `0.0` on an empty Sales table, else the sum of the
`Total Price` column, summed as the exact rationals the embedding stores.
The real column is float64; `calculate_revenue_f64` below gives the same
code its binary64 sum semantics. -/
def calculate_revenue (s : Ledger) : ℚ :=
  if s.sales.isEmpty then 0 else (s.sales.map (·.totalPrice)).sum

/-- Number of binary digits of `n` (0 for 0), by structural recursion on
a fuel bound that always suffices. -/
def bitsAux : ℕ → ℕ → ℕ
  | 0, _ => 0
  | fuel + 1, n => if n = 0 then 0 else bitsAux fuel (n / 2) + 1

/-- `bitLen n` is the position of the highest set bit plus one:
`2 ^ (bitLen n - 1) ≤ n < 2 ^ bitLen n` for positive `n`. -/
def bitLen (n : ℕ) : ℕ := bitsAux (n + 1) n

/-- Round the positive rational `n / d` to 53 significant bits, to
nearest, ties to even: the rounding IEEE-754 binary64 applies to every
normal-range result.  The exponent is located from the bit lengths of
numerator and denominator, then the 53-bit significand is obtained by
one integer division with round-to-nearest-even on the remainder. -/
def roundPos53 (n d : ℕ) : ℚ :=
  let t : ℤ := (bitLen n : ℤ) - (bitLen d : ℤ)
  let geT : Bool :=
    if 0 ≤ t then decide (d * 2 ^ t.toNat ≤ n) else decide (d ≤ n * 2 ^ (-t).toNat)
  let L : ℤ := if geT then t else t - 1
  let e : ℤ := L - 52
  let num : ℕ := if 0 ≤ e then n else n * 2 ^ (-e).toNat
  let den : ℕ := if 0 ≤ e then d * 2 ^ e.toNat else d
  let m0 : ℕ := num / den
  let r : ℕ := num % den
  let m : ℕ :=
    if 2 * r < den then m0
    else if den < 2 * r then m0 + 1
    else if m0 % 2 = 0 then m0 else m0 + 1
  if 0 ≤ e then ((m * 2 ^ e.toNat : ℕ) : ℚ) else (m : ℚ) / ((2 ^ (-e).toNat : ℕ) : ℚ)

/-- Round a rational to the binary64 grid (normal range): 53 significant
bits, to nearest, ties to even, with the sign handled symmetrically. -/
def roundSig53 (q : ℚ) : ℚ :=
  if q = 0 then 0
  else if q < 0 then -roundPos53 q.num.natAbs q.den
  else roundPos53 q.num.natAbs q.den

/-- Binary64 addition in the normal range: add exactly, then round to 53
significant bits — the arithmetic of the float64 `Total Price` column. -/
def addF64 (x y : ℚ) : ℚ := roundSig53 (x + y)

/-- Summing a float64 column left to right with binary64 additions.  For
tables of fewer than 8 rows holding binary64 values this performs the
same correctly-rounded additions as numpy's pairwise `sum`. -/
def sumF64 (l : List ℚ) : ℚ := l.foldl addF64 0

/-- `calculate_revenue` (app.py lines 111-114) with the column's real
float64 semantics: the `Total Price` cells are binary64 values and the
sum is computed in binary64. -/
def calculate_revenue_f64 (s : Ledger) : ℚ :=
  if s.sales.isEmpty then 0 else sumF64 (s.sales.map (·.totalPrice))

/-- The stock the ledger reports for a product: the `Quantity` of the
first Inventory row with that `Product ID` (which is how every read in
app.py resolves a product id). -/
def stockOf (s : Ledger) (pid : String) : Option ℤ :=
  (s.inventory.find? (fun p => p.productId == pid)).map (·.quantity)

/-- One mutating ledger call, as issued by the UI layer. -/
inductive LedgerOp where
  | upsert (pid name : String) (price : ℚ) (qty : ℤ) (category : String)
  | sale (customer pid : String) (qty : ℤ) (date : String)
  | delete (index : ℤ)
deriving Repr, DecidableEq

/-- Apply one ledger call to the state; a failed call leaves the state
unchanged (the second component of the error-state pair). -/
def applyOp (s : Ledger) : LedgerOp → Ledger
  | .upsert pid name price qty category => add_product s pid name price qty category
  | .sale customer pid qty date => (record_sale s customer pid qty date).2
  | .delete index => (delete_sale s index).2

/-- The empty ledger: both tables start as empty DataFrames. -/
def emptyLedger : Ledger := ⟨[], []⟩

/-- Run a sequence of ledger calls from the empty tables. -/
def runOps (ops : List LedgerOp) : Ledger := ops.foldl applyOp emptyLedger

/-- Lower-case a string, character by character (the semantics of
`.str.lower()` / `query.lower()` in app.py). -/
def strLower (s : String) : String := ⟨s.data.map Char.toLower⟩

/-- `pre` is a leading segment of the second list. -/
def leadsList : List Char → List Char → Bool
  | [], _ => true
  | _ :: _, [] => false
  | a :: as, b :: bs => a == b && leadsList as bs

/-- `needle` occurs contiguously inside the second list. -/
def hasInfixChars (needle : List Char) : List Char → Bool
  | [] => leadsList needle []
  | b :: bs => leadsList needle (b :: bs) || hasInfixChars needle bs

/-- Substring test: `needle` occurs contiguously inside `hay`
(the semantics of Python's `in` on two strings). -/
def strContains (hay needle : String) : Bool :=
  hasInfixChars needle.data hay.data

/-- The field values of an Inventory row as strings, in column order
(`row.astype(str)` in app.py line 241; numeric cells via `toString`). -/
def productFieldStrings (p : Product) : List String :=
  [p.productId, p.name, toString p.price, toString p.quantity, p.category]

/-- The field values of a Sales row as strings, in column order
(`row.astype(str)` in app.py line 247). -/
def saleFieldStrings (r : SaleRecord) : List String :=
  [r.date, r.customerName, r.productId, r.productName,
   toString r.quantitySold, toString r.totalPrice]

/-- The Inventory branch of the Search Data menu (app.py lines 239-243):
keeps the rows where `query.lower() in row.astype(str).str.lower().values`
— a membership test of the lowered query among the lowered field strings,
i.e. full-field equality. -/
def searchInventory (s : Ledger) (query : String) : List Product :=
  s.inventory.filter (fun row =>
    ((productFieldStrings row).map strLower).contains (strLower query))

/-- The Sales branch of the Search Data menu (app.py lines 245-249),
with the same membership test over the Sales columns. -/
def searchSales (s : Ledger) (query : String) : List SaleRecord :=
  s.sales.filter (fun row =>
    ((saleFieldStrings row).map strLower).contains (strLower query))

/-- Modelled from the spec: the search behaviour C8 claims — keep the
rows where at least one field's string representation contains the query
as a case-insensitive substring. -/
def searchInventorySpec (s : Ledger) (query : String) : List Product :=
  s.inventory.filter (fun row =>
    (productFieldStrings row).any (fun f => strContains (strLower f) (strLower query)))

/-- Modelled from the spec: the substring-search behaviour over the
Sales table. -/
def searchSalesSpec (s : Ledger) (query : String) : List SaleRecord :=
  s.sales.filter (fun row =>
    (saleFieldStrings row).any (fun f => strContains (strLower f) (strLower query)))

/-- A one-product ledger used as concrete input in counterexamples and
witnesses. -/
def exampleLedger : Ledger := ⟨[⟨"P1", "Widget", 10, 5, "Tools"⟩], []⟩

/-- Validated UI inputs: the quantity forms only accept non-negative
quantities (`min_value=0` on the product form, `min_value=1` on the sale
form). -/
def opQtyOK : LedgerOp → Prop
  | .upsert _ _ _ qty _ => 0 ≤ qty
  | .sale _ _ qty _ => 0 ≤ qty
  | .delete _ => True

instance : DecidablePred opQtyOK := fun op =>
  match op with
  | .upsert _ _ _ qty _ => inferInstanceAs (Decidable (0 ≤ qty))
  | .sale _ _ qty _ => inferInstanceAs (Decidable (0 ≤ qty))
  | .delete _ => inferInstanceAs (Decidable True)

/-- Every Quantity cell and every Quantity Sold cell is non-negative. -/
def qtyInv (s : Ledger) : Prop :=
  (∀ p ∈ s.inventory, 0 ≤ p.quantity) ∧ (∀ r ∈ s.sales, 0 ≤ r.quantitySold)

instance (s : Ledger) : Decidable (qtyInv s) :=
  inferInstanceAs (Decidable (_ ∧ _))

/-- Rewriting the Quantity column of the rows matching `pid` commutes
with looking up the first row matching `pid` (the shape of both `.loc`
updates in app.py). -/
theorem find?_quantity_update (l : List Product) (pid : String) (t : Product → ℤ) :
    (l.map (fun p =>
        if p.productId == pid then { p with quantity := t p } else p)).find?
      (fun p => p.productId == pid)
    = (l.find? (fun p => p.productId == pid)).map
        (fun p => if p.productId == pid then { p with quantity := t p } else p) := by
  rw [List.find?_map]
  have hpred : ((fun p : Product => p.productId == pid) ∘ fun p =>
      if p.productId == pid then { p with quantity := t p } else p) =
      (fun p : Product => p.productId == pid) := by
    funext p
    by_cases h : p.productId == pid <;> simp [Function.comp, h]
  rw [hpred]

/-- Quantity-column rewrites leave every Product ID cell unchanged. -/
theorem mem_quantity_update {l : List Product} {pid : String} {t : Product → ℤ}
    {q : Product}
    (hq : q ∈ l.map (fun p =>
        if p.productId == pid then { p with quantity := t p } else p)) :
    ∃ p ∈ l, q = (if p.productId == pid then { p with quantity := t p } else p) := by
  rcases List.mem_map.mp hq with ⟨p, hp, rfl⟩
  exact ⟨p, hp, rfl⟩

/-- C1: the spec claims `upsertProduct` overwrites the existing row in
place when `productId` is already present, keeping the Inventory length
unchanged.  The code's `add_product` never looks `pid` up, so on the
one-product ledger holding "P1" a second call with "P1" grows the table:
the claim is false. -/
theorem C1_counterexample :
    exampleLedger.inventory.any (fun p => p.productId == "P1") = true ∧
    (add_product exampleLedger "P1" "Gadget" 2 3 "").inventory.length ≠
      exampleLedger.inventory.length := by
  decide

/-- C1 (amended): every `add_product` call appends a new row holding the
given fields, whether or not `productId` is already present: the
Inventory length increases by exactly 1, every pre-existing row is
unchanged at its position, and the Sales table is unchanged. -/
theorem C1_add_product_appends (s : Ledger) (pid name : String) (price : ℚ)
    (qty : ℤ) (category : String) :
    (add_product s pid name price qty category).inventory.length =
      s.inventory.length + 1 ∧
    (∀ i, i < s.inventory.length →
      (add_product s pid name price qty category).inventory[i]? =
        s.inventory[i]?) ∧
    (add_product s pid name price qty category).inventory.getLast? =
      some ⟨pid, name, price, qty, category⟩ ∧
    (add_product s pid name price qty category).sales = s.sales := by
  refine ⟨?_, ?_, ?_, rfl⟩
  · simp [add_product]
  · intro i hi
    exact List.getElem?_append_left hi
  · exact List.getLast?_concat _

/-- Witness for C1 at a concrete input: appending "P2" to the
one-product ledger keeps row 0 and yields length 2. -/
theorem C1_add_product_appends_witness :
    (add_product exampleLedger "P2" "Gadget" 2 3 "Toys").inventory.length = 2 ∧
    (add_product exampleLedger "P2" "Gadget" 2 3 "Toys").inventory[0]? =
      exampleLedger.inventory[0]? := by
  have h := C1_add_product_appends exampleLedger "P2" "Gadget" 2 3 "Toys"
  exact ⟨h.1, h.2.1 0 (by decide)⟩

/-- `record_sale` when the product id is absent: error, state untouched. -/
theorem record_sale_not_found {s : Ledger} {customer pid : String} {qty : ℤ}
    {date : String}
    (hf : s.inventory.find? (fun p => p.productId == pid) = none) :
    record_sale s customer pid qty date = (some .productNotFound, s) := by
  unfold record_sale
  rw [hf]

/-- `record_sale` when the first matching row holds too little stock:
error, state untouched. -/
theorem record_sale_insufficient {s : Ledger} {customer pid : String} {qty : ℤ}
    {date : String} {product : Product}
    (hf : s.inventory.find? (fun p => p.productId == pid) = some product)
    (hq : product.quantity < qty) :
    record_sale s customer pid qty date = (some .insufficientStock, s) := by
  unfold record_sale
  rw [hf]
  simp only [if_pos hq]

/-- `record_sale` on sufficient stock: the new row is appended to Sales
and the Quantity of every row matching `pid` is set to the first matching
row's stock minus `qty`. -/
theorem record_sale_success {s : Ledger} {customer pid : String} {qty : ℤ}
    {date : String} {product : Product}
    (hf : s.inventory.find? (fun p => p.productId == pid) = some product)
    (hq : qty ≤ product.quantity) :
    record_sale s customer pid qty date =
      (none,
       ⟨s.inventory.map (fun p =>
          if p.productId == pid then
            { p with quantity := product.quantity - qty } else p),
        s.sales ++ [⟨date, customer, pid, product.name, qty,
          product.price * qty⟩]⟩) := by
  unfold record_sale
  rw [hf]
  simp only [if_neg (by omega : ¬ qty > product.quantity)]

/-- C3: a `record_sale` call on a present, uniquely matched product id
with a positive quantity within the available stock succeeds: stock drops
by exactly `qty`, the appended record's total price is the current price
times `qty`, and the Sales length grows by 1. -/
theorem C3_record_sale_success_effect (s : Ledger) (customer pid : String)
    (qty : ℤ) (date : String) (product : Product)
    (hfind : s.inventory.find? (fun p => p.productId == pid) = some product)
    (huniq : (s.inventory.filter (fun p => p.productId == pid)).length = 1)
    (hpos : 0 < qty) (hle : qty ≤ product.quantity) :
    (record_sale s customer pid qty date).1 = none ∧
    (record_sale s customer pid qty date).2.sales.length = s.sales.length + 1 ∧
    (record_sale s customer pid qty date).2.sales.getLast? =
      some ⟨date, customer, pid, product.name, qty, product.price * qty⟩ ∧
    stockOf s pid = some product.quantity ∧
    stockOf (record_sale s customer pid qty date).2 pid =
      some (product.quantity - qty) := by
  rw [record_sale_success hfind hle]
  refine ⟨rfl, by simp, List.getLast?_concat _, ?_, ?_⟩
  · unfold stockOf
    rw [hfind]
    rfl
  · have hpp : product.productId = pid := by
      simpa using List.find?_some hfind
    unfold stockOf
    rw [find?_quantity_update s.inventory pid
      (fun _ => product.quantity - qty), hfind]
    simp [hpp]

/-- Witness for C3: selling 3 of the 5 "P1" Widgets succeeds and leaves a
stock of 2. -/
theorem C3_record_sale_success_effect_witness :
    (record_sale exampleLedger "Alice" "P1" 3 "2024-01-01 00:00:00").1 = none ∧
    stockOf (record_sale exampleLedger "Alice" "P1" 3 "2024-01-01 00:00:00").2
      "P1" = some 2 := by
  have h := C3_record_sale_success_effect exampleLedger "Alice" "P1" 3
    "2024-01-01 00:00:00" ⟨"P1", "Widget", 10, 5, "Tools"⟩
    (by decide) (by decide) (by decide) (by decide)
  exact ⟨h.1, h.2.2.2.2.trans (by decide)⟩

/-- C4: `record_sale` reports an unknown product exactly when `pid` has
no Inventory row, otherwise reports insufficient stock exactly when `qty`
exceeds the (first matching row's) stock; every failure leaves the state
untouched, and a sale of exactly the available stock succeeds and drains
the stock to 0. -/
theorem C4_record_sale_failure_modes (s : Ledger) (customer pid : String)
    (qty : ℤ) (date : String) :
    ((record_sale s customer pid qty date).1 = some .productNotFound ↔
      s.inventory.find? (fun p => p.productId == pid) = none) ∧
    ((record_sale s customer pid qty date).1 = some .insufficientStock ↔
      ∃ product, s.inventory.find? (fun p => p.productId == pid) =
        some product ∧ product.quantity < qty) ∧
    ((record_sale s customer pid qty date).1 ≠ none →
      (record_sale s customer pid qty date).2 = s) ∧
    (∀ product, s.inventory.find? (fun p => p.productId == pid) =
        some product → qty = product.quantity →
      (record_sale s customer pid qty date).1 = none ∧
      stockOf (record_sale s customer pid qty date).2 pid = some 0) := by
  rcases hf : s.inventory.find? (fun p => p.productId == pid) with _ | product
  · rw [record_sale_not_found hf]
    refine ⟨⟨fun _ => hf, fun _ => rfl⟩, ?_, fun _ => rfl,
      fun product hp _ => ?_⟩
    · constructor
      · intro h
        exact absurd h (by simp)
      · rintro ⟨product, hp, _⟩
        rw [hf] at hp
        exact Option.noConfusion hp
    · rw [hf] at hp
      exact Option.noConfusion hp
  · by_cases hq : product.quantity < qty
    · rw [record_sale_insufficient hf hq]
      refine ⟨?_, ?_, fun _ => rfl, fun product' hp heq => ?_⟩
      · constructor
        · intro h
          exact absurd h (by simp)
        · intro h
          rw [hf] at h
          exact Option.noConfusion h
      · exact ⟨fun _ => ⟨product, hf, hq⟩, fun _ => rfl⟩
      · rw [hf] at hp
        cases hp
        omega
    · rw [record_sale_success hf (by omega)]
      refine ⟨?_, ?_, by simp, fun product' hp hfeq => ?_⟩
      · constructor
        · intro h
          exact absurd h (by simp)
        · intro h
          rw [hf] at h
          exact Option.noConfusion h
      · constructor
        · intro h
          exact absurd h (by simp)
        · rintro ⟨product', hp, hq'⟩
          rw [hf] at hp
          cases hp
          omega
      · rw [hf] at hp
        cases hp
        have hpp : product.productId = pid := by
          simpa using List.find?_some hf
        refine ⟨rfl, ?_⟩
        unfold stockOf
        rw [find?_quantity_update s.inventory pid
          (fun _ => product.quantity - qty), hf]
        simp [hpp, hfeq]

/-- Witness for C4 at concrete inputs: a sale against an unknown id
fails without touching the ledger, and selling all 5 Widgets drains the
stock to 0. -/
theorem C4_record_sale_failure_modes_witness :
    (record_sale exampleLedger "Alice" "PX" 1 "d").1 = some .productNotFound ∧
    (record_sale exampleLedger "Alice" "PX" 1 "d").2 = exampleLedger ∧
    stockOf (record_sale exampleLedger "Alice" "P1" 5 "d").2 "P1" = some 0 := by
  have h1 := C4_record_sale_failure_modes exampleLedger "Alice" "PX" 1 "d"
  have h2 := C4_record_sale_failure_modes exampleLedger "Alice" "P1" 5 "d"
  have e1 : (record_sale exampleLedger "Alice" "PX" 1 "d").1 =
      some .productNotFound := h1.1.mpr (by decide)
  refine ⟨e1, h1.2.2.1 (by rw [e1]; exact Option.noConfusion), ?_⟩
  exact (h2.2.2.2 ⟨"P1", "Widget", 10, 5, "Tools"⟩ (by decide) (by decide)).2

/-- C6: `delete_sale` with a negative index or an index at or past the
Sales length reports an invalid index and leaves both tables unchanged,
for every table state. -/
theorem C6_delete_sale_out_of_range (s : Ledger) (i : ℤ)
    (h : i < 0 ∨ (s.sales.length : ℤ) ≤ i) :
    delete_sale s i = (some .indexOutOfRange, s) := by
  unfold delete_sale
  rw [dif_neg]
  omega

/-- Witness for C6: deleting index 0 from the empty ledger fails and
changes nothing. -/
theorem C6_delete_sale_out_of_range_witness :
    delete_sale emptyLedger 0 = (some .indexOutOfRange, emptyLedger) :=
  C6_delete_sale_out_of_range emptyLedger 0 (Or.inr (by decide))

/-- `delete_sale` at the index of a sale just appended: the guard passes,
the appended row is the one read back, and the Sales table returns to its
previous value. -/
theorem delete_sale_concat (inv : List Product) (sales : List SaleRecord)
    (r : SaleRecord) :
    delete_sale ⟨inv, sales ++ [r]⟩ (sales.length : ℤ) =
      (none,
       ⟨if inv.any (fun p => p.productId == r.productId) then
          inv.map (fun p =>
            if p.productId == r.productId then
              { p with quantity := p.quantity + r.quantitySold } else p)
        else inv,
        sales⟩) := by
  unfold delete_sale
  rw [dif_pos ⟨Int.natCast_nonneg _, by exact_mod_cast by simp⟩]
  simp only [Int.toNat_natCast, List.get_eq_getElem, List.getElem_concat_length,
    List.eraseIdx_append_of_length_le (Nat.le_refl sales.length), Nat.sub_self,
    List.eraseIdx_cons_zero, List.append_nil]

/-- C5: on any ledger state, a successful `record_sale` followed by
`delete_sale` at the index of the record it created restores the sold
product's stock (the Quantity read back for its id) to its pre-sale value
and restores the Sales table, hence its length, to its pre-sale value. -/
theorem C5_sale_then_delete_round_trip (s : Ledger) (customer pid : String)
    (qty : ℤ) (date : String) (product : Product)
    (hfind : s.inventory.find? (fun p => p.productId == pid) = some product)
    (hle : qty ≤ product.quantity) :
    (delete_sale (record_sale s customer pid qty date).2
        (s.sales.length : ℤ)).1 = none ∧
    stockOf (delete_sale (record_sale s customer pid qty date).2
        (s.sales.length : ℤ)).2 pid = stockOf s pid ∧
    (delete_sale (record_sale s customer pid qty date).2
        (s.sales.length : ℤ)).2.sales = s.sales := by
  have hpp : product.productId = pid := by
    simpa using List.find?_some hfind
  rw [record_sale_success hfind hle, delete_sale_concat]
  have hany : (s.inventory.map (fun p =>
      if p.productId == pid then
        { p with quantity := product.quantity - qty } else p)).any
      (fun p => p.productId == pid) = true := by
    refine List.any_eq_true.mpr ⟨_, List.mem_map_of_mem _
      (List.mem_of_find?_eq_some hfind), ?_⟩
    simp [hpp]
  refine ⟨?_, ?_, ?_⟩
  · simp only [hany, if_true]
  · simp only [hany, if_true]
    unfold stockOf
    rw [find?_quantity_update _ pid (fun p => p.quantity + qty),
      find?_quantity_update _ pid (fun _ => product.quantity - qty), hfind]
    simp [hpp]
  · simp only [hany, if_true]

/-- Witness for C5: sell 3 Widgets then delete that sale; stock returns
to 5 and the Sales table returns to empty. -/
theorem C5_sale_then_delete_round_trip_witness :
    (delete_sale (record_sale exampleLedger "Alice" "P1" 3 "d").2 0).1 =
      none ∧
    stockOf (delete_sale (record_sale exampleLedger "Alice" "P1" 3 "d").2
      0).2 "P1" = stockOf exampleLedger "P1" ∧
    (delete_sale (record_sale exampleLedger "Alice" "P1" 3 "d").2 0).2.sales =
      exampleLedger.sales :=
  C5_sale_then_delete_round_trip exampleLedger "Alice" "P1" 3 "d"
    ⟨"P1", "Widget", 10, 5, "Tools"⟩ (by decide) (by decide)

/-- A two-row ledger whose rows share the Product ID "P1" with different
names, prices and stock levels. -/
def dupLedger : Ledger :=
  ⟨[⟨"P1", "Widget", 10, 5, "Tools"⟩, ⟨"P1", "Gadget", 7, 9, "Toys"⟩], []⟩

/-- C10: when several Inventory rows share the sold Product ID, a
successful `record_sale` reads stock, price and name from the first
matching row only, and then writes that first row's stock minus `qty`
into the Quantity cell of every matching row, leaving non-matching rows
unchanged. -/
theorem C10_duplicate_ids_first_row_wins (s : Ledger) (customer pid : String)
    (qty : ℤ) (date : String) (product : Product)
    (hfind : s.inventory.find? (fun p => p.productId == pid) = some product)
    (hdup : 2 ≤ (s.inventory.filter (fun p => p.productId == pid)).length)
    (hle : qty ≤ product.quantity) :
    (record_sale s customer pid qty date).1 = none ∧
    (record_sale s customer pid qty date).2.sales.getLast? =
      some ⟨date, customer, pid, product.name, qty, product.price * qty⟩ ∧
    (record_sale s customer pid qty date).2.inventory.length =
      s.inventory.length ∧
    (∀ i, i < s.inventory.length →
      ((s.inventory[i]?.map (·.productId) = some pid →
        (record_sale s customer pid qty date).2.inventory[i]?.map
          (·.quantity) = some (product.quantity - qty)) ∧
       (s.inventory[i]?.map (·.productId) ≠ some pid →
        (record_sale s customer pid qty date).2.inventory[i]? =
          s.inventory[i]?))) := by
  rw [record_sale_success hfind hle]
  refine ⟨rfl, List.getLast?_concat _, by simp, fun i hi => ?_⟩
  rcases hrow : s.inventory[i]? with _ | p
  · exact absurd hrow (by simp [hi])
  · constructor
    · intro hp
      have hppid : p.productId = pid := by
        simpa using hp
      simp only [List.getElem?_map, hrow, Option.map_some]
      simp [hppid]
    · intro hp
      have hppid : ¬ p.productId = pid := by
        simpa using hp
      simp only [List.getElem?_map, hrow, Option.map_some]
      simp [hppid]

/-- Witness for C10 on the shared-id ledger: selling 3 reads stock 5 from
the first row and overwrites the second row's Quantity 9 with 2 as well. -/
theorem C10_duplicate_ids_first_row_wins_witness :
    (record_sale dupLedger "Alice" "P1" 3 "d").1 = none ∧
    (record_sale dupLedger "Alice" "P1" 3 "d").2.inventory[1]?.map
      (·.quantity) = some 2 := by
  have h := C10_duplicate_ids_first_row_wins dupLedger "Alice" "P1" 3 "d"
    ⟨"P1", "Widget", 10, 5, "Tools"⟩ (by decide) (by decide) (by decide)
  exact ⟨h.1, ((h.2.2.2 1 (by decide)).1 (by decide)).trans (by decide)⟩

/-- One ledger call keeps all Quantity and Quantity Sold cells
non-negative, provided its own quantity input is non-negative. -/
theorem qtyInv_applyOp {s : Ledger} {op : LedgerOp}
    (hs : qtyInv s) (hop : opQtyOK op) : qtyInv (applyOp s op) := by
  rcases op with ⟨pid, name, price, qty, category⟩ |
    ⟨customer, pid, qty, date⟩ | i
  · refine ⟨?_, hs.2⟩
    intro p hp
    rcases List.mem_append.mp hp with h | h
    · exact hs.1 p h
    · rw [List.mem_singleton.mp h]
      exact hop
  · rcases hf : s.inventory.find? (fun p => p.productId == pid) with _ | product
    · show qtyInv (record_sale s customer pid qty date).2
      rw [record_sale_not_found hf]
      exact hs
    · by_cases hq : product.quantity < qty
      · show qtyInv (record_sale s customer pid qty date).2
        rw [record_sale_insufficient hf hq]
        exact hs
      · show qtyInv (record_sale s customer pid qty date).2
        rw [record_sale_success hf (by omega)]
        constructor
        · intro p hp
          rcases mem_quantity_update hp with ⟨p0, hp0, heq⟩
          rw [heq]
          by_cases hm : p0.productId == pid
          · rw [if_pos hm]
            show 0 ≤ product.quantity - qty
            omega
          · rw [if_neg hm]
            exact hs.1 p0 hp0
        · intro r hr
          rcases List.mem_append.mp hr with h | h
          · exact hs.2 r h
          · rw [List.mem_singleton.mp h]
            exact hop
  · show qtyInv (delete_sale s i).2
    unfold delete_sale
    split
    · case isTrue h =>
      constructor
      · intro p hp
        simp only [] at hp
        split at hp
        · rcases mem_quantity_update hp with ⟨p0, hp0, heq⟩
          rw [heq]
          have hrec : 0 ≤ (s.sales.get ⟨i.toNat, by omega⟩).quantitySold :=
            hs.2 _ (by rw [List.get_eq_getElem]; exact List.getElem_mem _)
          by_cases hm : p0.productId ==
              (s.sales.get ⟨i.toNat, by omega⟩).productId
          · rw [if_pos hm]
            have h0 := hs.1 p0 hp0
            show 0 ≤ p0.quantity + _
            omega
          · rw [if_neg hm]
            exact hs.1 p0 hp0
        · exact hs.1 p hp
      · intro r hr
        exact hs.2 r (List.mem_of_mem_eraseIdx hr)
    · exact hs

/-- Chaining calls preserves the non-negativity of all quantity cells. -/
theorem qtyInv_foldl (ops : List LedgerOp) (s : Ledger) (hs : qtyInv s)
    (hok : ∀ op ∈ ops, opQtyOK op) : qtyInv (ops.foldl applyOp s) := by
  induction ops generalizing s with
  | nil => exact hs
  | cons op rest ih =>
    exact ih _ (qtyInv_applyOp hs (hok op (List.mem_cons_self op rest)))
      (fun o ho => hok o (List.mem_cons_of_mem op ho))

/-- C2: the spec claims `productId` stays unique across Inventory rows
under every operation sequence.  Two `upsertProduct` calls with the same
id, run from empty tables, leave two rows with id "P1": the claim is
false. -/
theorem C2_counterexample :
    (∀ op ∈ ([.upsert "P1" "A" 1 2 "", .upsert "P1" "B" 3 4 ""] :
        List LedgerOp), opQtyOK op) ∧
    ¬ ((runOps [.upsert "P1" "A" 1 2 "", .upsert "P1" "B" 3 4 ""]).inventory.map
        (·.productId)).Nodup := by
  decide

/-- C2 (amended): for every operation sequence from empty tables whose
upsert and sale quantities are non-negative, at every point (i.e. after
every prefix of the sequence) each Inventory row's Quantity and each
Sales row's Quantity Sold is non-negative.  The uniqueness half of the
spec's invariant is dropped: `add_product` always appends, so duplicate
Product IDs are reachable. -/
theorem C2_quantities_stay_nonneg (ops pre rest : List LedgerOp)
    (hsplit : ops = pre ++ rest) (hok : ∀ op ∈ ops, opQtyOK op) :
    qtyInv (runOps pre) := by
  refine qtyInv_foldl pre emptyLedger ⟨?_, ?_⟩ ?_
  · intro p hp
    exact absurd hp (List.not_mem_nil p)
  · intro r hr
    exact absurd hr (List.not_mem_nil r)
  · intro op hop
    exact hok op (by rw [hsplit]; exact List.mem_append_left rest hop)

/-- Witness for C2 on a concrete add-sell-delete run. -/
theorem C2_quantities_stay_nonneg_witness :
    qtyInv (runOps [.upsert "P1" "Widget" 10 5 "Tools",
      .sale "Alice" "P1" 3 "d", .delete 0]) :=
  C2_quantities_stay_nonneg _ _ [] (List.append_nil _).symm (by decide)

/-- The membership test `query.lower() in <lowered field strings>`
holds exactly when some field lowers to the lowered query. -/
theorem contains_lower_iff (q : String) (fs : List String) :
    ((fs.map strLower).contains (strLower q) = true) ↔
      ∃ f ∈ fs, strLower f = strLower q := by
  rw [List.contains_iff_exists_mem_beq]
  constructor
  · rintro ⟨x, hx, hbeq⟩
    rcases List.mem_map.mp hx with ⟨f, hf, rfl⟩
    exact ⟨f, hf, (beq_iff_eq.mp hbeq).symm⟩
  · rintro ⟨f, hf, hfq⟩
    exact ⟨strLower f, List.mem_map_of_mem _ hf, beq_iff_eq.mpr hfq.symm⟩

/-- C8: the spec claims the search returns the rows in which some field
contains the query as a case-insensitive substring.  The code tests the
lowered query for membership among the lowered field strings, i.e. whole
-field equality: "wid" occurs inside "Widget" but matches nothing, while
the substring semantics selects the row.  The claim is false. -/
theorem C8_counterexample :
    strContains (strLower "Widget") (strLower "wid") = true ∧
    searchInventory exampleLedger "wid" = [] ∧
    searchInventorySpec exampleLedger "wid" =
      [⟨"P1", "Widget", 10, 5, "Tools"⟩] := by
  decide

/-- C8 (amended): the Inventory and Sales searches return exactly the
rows in which at least one field's string representation equals the
query up to letter case (whole-field case-insensitive equality, not
substring containment). -/
theorem C8_search_is_exact_field_equality (s : Ledger) (q : String)
    (p : Product) (r : SaleRecord) :
    (p ∈ searchInventory s q ↔ p ∈ s.inventory ∧
      ∃ f ∈ productFieldStrings p, strLower f = strLower q) ∧
    (r ∈ searchSales s q ↔ r ∈ s.sales ∧
      ∃ f ∈ saleFieldStrings r, strLower f = strLower q) := by
  constructor
  · unfold searchInventory
    rw [List.mem_filter]
    exact and_congr_right fun _ => contains_lower_iff q (productFieldStrings p)
  · unfold searchSales
    rw [List.mem_filter]
    exact and_congr_right fun _ => contains_lower_iff q (saleFieldStrings r)

/-- Witness for C8: the query "WIDGET" matches the "Widget" row by
whole-field case-insensitive equality. -/
theorem C8_search_is_exact_field_equality_witness :
    (⟨"P1", "Widget", 10, 5, "Tools"⟩ : Product) ∈
      searchInventory exampleLedger "WIDGET" :=
  ((C8_search_is_exact_field_equality exampleLedger "WIDGET"
      ⟨"P1", "Widget", 10, 5, "Tools"⟩ ⟨"", "", "", "", 0, 0⟩).1).mpr
    ⟨by decide, "Widget", by decide, by decide⟩

/-- C9: the spec claims the product form fails validation whenever the
id or name is empty after trimming whitespace.  The handler tests Python
truthiness of the raw strings, so the all-whitespace id " " (which trims
to empty) passes validation and the row is added: the claim is false. -/
theorem C9_counterexample :
    " ".data.all Char.isWhitespace = true ∧
    add_product_form emptyLedger " " "x" 1 1 "" ≠ emptyLedger := by
  decide

/-- C9 (amended): the product form rejects the submission — warning
shown, both tables left unchanged — exactly when the raw `productId` or
`name` is the empty string; any other input, including whitespace-only
strings, is passed straight to `add_product`. -/
theorem C9_form_rejects_only_literal_empty (s : Ledger) (pid name : String)
    (price : ℚ) (qty : ℤ) (category : String) :
    ((pid = "" ∨ name = "") →
      add_product_form s pid name price qty category = s) ∧
    (pid ≠ "" → name ≠ "" →
      add_product_form s pid name price qty category =
        add_product s pid name price qty category) := by
  constructor
  · intro h
    unfold add_product_form
    rw [if_neg]
    tauto
  · intro h1 h2
    unfold add_product_form
    rw [if_pos ⟨h1, h2⟩]

/-- Witness for C9: an empty id is rejected and the ledger is
unchanged. -/
theorem C9_form_rejects_only_literal_empty_witness :
    add_product_form exampleLedger "" "x" 1 1 "" = exampleLedger :=
  (C9_form_rejects_only_literal_empty exampleLedger "" "x" 1 1 "").1
    (Or.inl rfl)

unseal Rat.mul Rat.inv Rat.add in
/-- The binary64 value nearest 0.10, as `roundSig53` computes it.
(`Rat.mul`, `Rat.inv` and `Rat.add` are unsealed so these concrete
rational computations reduce.) -/
theorem roundSig53_point1 :
    roundSig53 (1/10) = (3602879701896397 / 2 ^ 55 : ℚ) := by
  decide

unseal Rat.mul Rat.inv Rat.add in
/-- The binary64 value nearest 0.20. -/
theorem roundSig53_point2 :
    roundSig53 (2/10) = (3602879701896397 / 2 ^ 54 : ℚ) := by
  decide

unseal Rat.mul Rat.inv Rat.add in
/-- The stored double for 0.10 is already on the binary64 grid. -/
theorem roundSig53_point1_idem :
    roundSig53 (roundSig53 (1/10)) = roundSig53 (1/10) := by
  decide

unseal Rat.mul Rat.inv Rat.add in
/-- The stored double for 0.20 is already on the binary64 grid. -/
theorem roundSig53_point2_idem :
    roundSig53 (roundSig53 (2/10)) = roundSig53 (2/10) := by
  decide

unseal Rat.mul Rat.inv Rat.add in
/-- On the two-sale table holding the doubles for 0.10 and 0.20, the
float64 revenue is not the exact sum of the two stored cells. -/
theorem revenue_f64_drifts_from_cell_sum :
    calculate_revenue_f64 ⟨[], [⟨"d1", "Alice", "PA", "A", 1, roundSig53 (1/10)⟩,
        ⟨"d2", "Bob", "PB", "B", 1, roundSig53 (2/10)⟩]⟩ ≠
      roundSig53 (1/10) + roundSig53 (2/10) := by
  decide

unseal Rat.mul Rat.inv Rat.add in
/-- On the same table the float64 revenue is not the decimal 0.30
either. -/
theorem revenue_f64_not_decimal_sum :
    calculate_revenue_f64 ⟨[], [⟨"d1", "Alice", "PA", "A", 1, roundSig53 (1/10)⟩,
        ⟨"d2", "Bob", "PB", "B", 1, roundSig53 (2/10)⟩]⟩ ≠ 3/10 := by
  decide

/-- C7: the spec claims the revenue sum is decimal-exact with no
floating drift for representative monetary values.  The `Total Price`
column is a pandas float64 column (app.py:114): on the two-sale table
whose stored total prices are the binary64 values nearest 0.10 and 0.20
(`roundSig53 (1/10)` = 3602879701896397/2^55 and `roundSig53 (2/10)` =
3602879701896397/2^54, identified by the first two conjuncts), the
float64 revenue differs both from the exact sum of the two stored cells
and from the decimal 0.30.  The claim is false. -/
theorem C7_counterexample :
    roundSig53 (1/10) = (3602879701896397 / 2 ^ 55 : ℚ) ∧
    roundSig53 (2/10) = (3602879701896397 / 2 ^ 54 : ℚ) ∧
    calculate_revenue_f64 ⟨[], [⟨"d1", "Alice", "PA", "A", 1, roundSig53 (1/10)⟩,
        ⟨"d2", "Bob", "PB", "B", 1, roundSig53 (2/10)⟩]⟩ ≠
      roundSig53 (1/10) + roundSig53 (2/10) ∧
    calculate_revenue_f64 ⟨[], [⟨"d1", "Alice", "PA", "A", 1, roundSig53 (1/10)⟩,
        ⟨"d2", "Bob", "PB", "B", 1, roundSig53 (2/10)⟩]⟩ ≠ 3/10 :=
  ⟨roundSig53_point1, roundSig53_point2, revenue_f64_drifts_from_cell_sum,
    revenue_f64_not_decimal_sum⟩

/-- C7 (amended): `calculate_revenue` returns 0 on an empty Sales table
(in both the exact and the float64 semantics) and returns the sum of the
`Total Price` column; the sum is exact over the exact rational cell
values, but the code's column is float64, and there are binary64 total
prices — among them the stored doubles for 0.10 and 0.20 — whose float64
revenue differs from their exact sum: the returned value is not
decimal-exact for representative monetary values. -/
theorem C7_revenue_sum_and_float_drift :
    (∀ inv : List Product, calculate_revenue ⟨inv, []⟩ = 0 ∧
      calculate_revenue_f64 ⟨inv, []⟩ = 0) ∧
    (∀ s : Ledger, calculate_revenue s = (s.sales.map (·.totalPrice)).sum) ∧
    (∃ p1 p2 : ℚ, roundSig53 p1 = p1 ∧ roundSig53 p2 = p2 ∧
      calculate_revenue_f64 ⟨[], [⟨"d1", "Alice", "PA", "A", 1, p1⟩,
        ⟨"d2", "Bob", "PB", "B", 1, p2⟩]⟩ ≠ p1 + p2) := by
  refine ⟨fun inv => ⟨rfl, rfl⟩, fun s => ?_, ?_⟩
  · unfold calculate_revenue
    by_cases h : s.sales.isEmpty
    · rw [if_pos h, List.isEmpty_iff.mp h]
      rfl
    · rw [if_neg h]
  · exact ⟨roundSig53 (1/10), roundSig53 (2/10), roundSig53_point1_idem,
      roundSig53_point2_idem, revenue_f64_drifts_from_cell_sum⟩
